import Mathlib

/-!
# SteganoGo: the PNG pixel-reconstruction pipeline

A shallow embedding of `internal/png/processpngdata.go`.

* Bytes and machine integers are natural numbers; a `uint8` result is reduced
  `% 2 ^ 8`, a `uint16` one `% 2 ^ 16` and a `uint32` one `% 2 ^ 32` at the place
  where the Go operation can wrap or truncate.
* A method with a pointer receiver that returns `error` becomes a function from the
  image before the call to the image after the call paired with `Option PngError`
  (`none` is Go's `nil` error).
* The chunk reader, the stream decompressor, the scanline defilterer and the file
  system are collaborators whose code is outside the translated file; they are
  arbitrary functions returning a value or an error.
-/

namespace SteganoGo

/-! ## Data model -/

/-- Error values. `ErrInvalidIHDR` is the sentinel of package `png` that
`processIHDR` returns; every other error (from a collaborator) is told apart by a
tag. -/
inductive PngError where
  | ErrInvalidIHDR : PngError
  | other (tag : Nat) : PngError
deriving DecidableEq, Repr

/-- The numeric codes of the five `ColorType` constants that `samplesPerPixel`
switches on. Their declaration is outside the translated file, so the codes are a
parameter of the embedding. -/
structure ColorTypes where
  Grayscale : Nat
  Truecolor : Nat
  IndexedColor : Nat
  GrayscaleWithAlpha : Nat
  TruecolorWithAlpha : Nat
deriving DecidableEq, Repr

/-- The five constants are pairwise different codes (Go rejects a `switch` with two
equal constant cases). -/
def ColorTypes.Distinct (c : ColorTypes) : Prop :=
  c.Grayscale ≠ c.Truecolor ∧ c.Grayscale ≠ c.IndexedColor ∧
  c.Grayscale ≠ c.GrayscaleWithAlpha ∧ c.Grayscale ≠ c.TruecolorWithAlpha ∧
  c.Truecolor ≠ c.IndexedColor ∧ c.Truecolor ≠ c.GrayscaleWithAlpha ∧
  c.Truecolor ≠ c.TruecolorWithAlpha ∧ c.IndexedColor ≠ c.GrayscaleWithAlpha ∧
  c.IndexedColor ≠ c.TruecolorWithAlpha ∧ c.GrayscaleWithAlpha ≠ c.TruecolorWithAlpha

instance (c : ColorTypes) : Decidable c.Distinct := by
  unfold ColorTypes.Distinct; infer_instance

/-- A code is one of the five known colour types. -/
def ColorTypes.Known (c : ColorTypes) (t : Nat) : Prop :=
  t = c.Grayscale ∨ t = c.IndexedColor ∨ t = c.GrayscaleWithAlpha ∨
  t = c.Truecolor ∨ t = c.TruecolorWithAlpha

instance (c : ColorTypes) (t : Nat) : Decidable (c.Known t) := by
  unfold ColorTypes.Known; infer_instance

/-- The colour-type codes of the PNG standard, a concrete assignment used to
evaluate the embedding on examples. -/
def pngColorTypes : ColorTypes :=
  { Grayscale := 0, Truecolor := 2, IndexedColor := 3,
    GrayscaleWithAlpha := 4, TruecolorWithAlpha := 6 }

/-- The struct `imageMetadata`; the default value of every field is Go's zero
value, so `{}` is `imageMetadata{}`. `width` and `height` are `uint32`, `bitDepth`
is `uint8`, the four remaining fields hold the raw header byte. -/
structure imageMetadata where
  width : Nat := 0
  height : Nat := 0
  bitDepth : Nat := 0
  colorType : Nat := 0
  compressionMethod : Nat := 0
  filterMethod : Nat := 0
  interlaceMethod : Nat := 0
deriving DecidableEq, Repr

/-- The parsed container `png.StructPNG`, seen through the two methods the pipeline
calls on it: `IHDRChunk` is the result of `stpng.IHDRChunk()` (on success the
chunk's `Data()`), `IDATdata` the result of `stpng.IDATdata()`. -/
structure StructPNG where
  IHDRChunk : Except PngError (List Nat)
  IDATdata : Except PngError (List Nat)

/-- The struct `PngImage`: the parsed container (`none` before one is assigned),
the metadata and the pixel data. -/
structure PngImage where
  png : Option StructPNG := none
  meta : imageMetadata := {}
  data : List Nat := []

/-- The stream decompressor and the scanline defilterer.
`DecompressPNGData data method` is `compressor.DecompressPNGData(data, method)`;
`reconstruct bpp stride height bitDepth decompressed` is what
`newFilterer(bpp, stride, height, bitDepth).reconstruct(decompressed)` returns, with
the filterer's `recon` buffer as the value on success. -/
structure Collaborators where
  DecompressPNGData : List Nat → Nat → Except PngError (List Nat)
  reconstruct : Nat → Nat → Nat → Nat → List Nat → Except PngError (List Nat)

/-- The file system and the container parser used by `ProcessImage`: `Open path` is
`os.Open(path)` (the file's bytes on success), `ParsePNG file` is
`png.ParsePNG(file)`. -/
structure FileSystem where
  Open : String → Except PngError (List Nat)
  ParsePNG : List Nat → Except PngError StructPNG

/-- The collaborator calls a run of the pipeline makes, in order. -/
inductive Stage where
  | IHDRChunk : Stage
  | IDATdata : Stage
  | DecompressPNGData : Stage
  | reconstruct : Stage
deriving DecidableEq, Repr

/-- The outcome of `ProcessData`: the image after the call, the returned error and
the collaborator calls made. -/
structure Outcome where
  img : PngImage
  err : Option PngError
  calls : List Stage

/-! ## The metadata parser -/

/-- The byte `d[i]`; every use below is behind the length check of `processIHDR`,
so the index is in range. -/
def byteAt (d : List Nat) (i : Nat) : Nat := d.getD i 0

/-- The slice expression `d[lo:hi]`. -/
def slice (d : List Nat) (lo hi : Nat) : List Nat := (d.take hi).drop lo

/-- The function `binary.BigEndian.Uint32`:
`uint32(b[3]) | uint32(b[2])<<8 | uint32(b[1])<<16 | uint32(b[0])<<24`. -/
def BigEndian_Uint32 (b : List Nat) : Nat :=
  (byteAt b 3 % 2 ^ 32) ||| ((byteAt b 2 <<< 8) % 2 ^ 32) |||
    ((byteAt b 1 <<< 16) % 2 ^ 32) ||| ((byteAt b 0 <<< 24) % 2 ^ 32)

/-- The method `processIHDR`. -/
def processIHDR (pngImg : PngImage) (ihdrData : List Nat) : PngImage × Option PngError :=
  let pngImg := { pngImg with meta := {} }
  if ihdrData.length ≠ 13 then
    (pngImg, some PngError.ErrInvalidIHDR)
  else
    let meta : imageMetadata := {}
    let buf := slice ihdrData 0 4
    let meta := { meta with width := BigEndian_Uint32 buf }
    let buf := slice ihdrData 4 8
    let meta := { meta with height := BigEndian_Uint32 buf }
    let meta := { meta with bitDepth := byteAt ihdrData 8 }
    let meta := { meta with colorType := byteAt ihdrData 9 }
    let meta := { meta with compressionMethod := byteAt ihdrData 10 }
    let meta := { meta with filterMethod := byteAt ihdrData 11 }
    let meta := { meta with interlaceMethod := byteAt ihdrData 12 }
    ({ pngImg with meta := meta }, none)

/-- The method `extractMetadata`. -/
def extractMetadata (pngImg : PngImage) (stpng : StructPNG) : PngImage × Option PngError :=
  let pngImg := { pngImg with meta := {} }
  match stpng.IHDRChunk with
  | .error err => (pngImg, some err)
  | .ok ihdrData =>
    match processIHDR pngImg ihdrData with
    | (pngImg, some err) => (pngImg, some err)
    | (pngImg, none) => (pngImg, none)

/-- The IHDR payload written back from a metadata value: width, then height, each
as 4 bytes with the most significant byte first, then bit depth, colour type,
compression method, filter method and interlace method. The source has no such
function; it is the re-serialisation the parser is compared with. -/
def serializeIHDR (m : imageMetadata) : List Nat :=
  [m.width / 2 ^ 24 % 256, m.width / 2 ^ 16 % 256, m.width / 2 ^ 8 % 256, m.width % 256,
   m.height / 2 ^ 24 % 256, m.height / 2 ^ 16 % 256, m.height / 2 ^ 8 % 256,
   m.height % 256,
   m.bitDepth, m.colorType, m.compressionMethod, m.filterMethod, m.interlaceMethod]

/-! ## The geometry calculator -/

/-- The method `samplesPerPixel`: a `switch` on the colour type, first matching case
wins, no case leaves `samples` at 0. -/
def samplesPerPixel (c : ColorTypes) (pngImg : PngImage) : Nat :=
  let samples := 0
  if pngImg.meta.colorType = c.Grayscale then 1
  else if pngImg.meta.colorType = c.IndexedColor then 1
  else if pngImg.meta.colorType = c.GrayscaleWithAlpha then 2
  else if pngImg.meta.colorType = c.Truecolor then 3
  else if pngImg.meta.colorType = c.TruecolorWithAlpha then 4
  else samples

/-- The `uint8` local `bytesPerSample` of `bytesPerPixel`. -/
def bytesPerSample (pngImg : PngImage) : Nat :=
  if pngImg.meta.bitDepth < 8 then 1 else pngImg.meta.bitDepth / 8

/-- The method `bytesPerPixel`; the product is a `uint8` multiplication. -/
def bytesPerPixel (c : ColorTypes) (pngImg : PngImage) : Nat :=
  (samplesPerPixel c pngImg * bytesPerSample pngImg) % 2 ^ 8

/-- The method `stride`; the product is a `uint32` multiplication. -/
def stride (c : ColorTypes) (pngImg : PngImage) : Nat :=
  (pngImg.meta.width * bytesPerPixel c pngImg) % 2 ^ 32

/-! ## The pipeline -/

/-- The four arguments of the call `newFilterer(pngImg.bytesPerPixel(),
uint16(pngImg.stride()), pngImg.meta.height, pngImg.meta.bitDepth)` in `Unfilter`;
the conversion `uint16(...)` keeps the low 16 bits. -/
def newFiltererArgs (c : ColorTypes) (pngImg : PngImage) : Nat × Nat × Nat × Nat :=
  (bytesPerPixel c pngImg, stride c pngImg % 2 ^ 16, pngImg.meta.height,
    pngImg.meta.bitDepth)

/-- The method `Unfilter`. -/
def Unfilter (k : Collaborators) (c : ColorTypes) (pngImg : PngImage)
    (decompressed : List Nat) : PngImage × Option PngError :=
  let a := newFiltererArgs c pngImg
  match k.reconstruct a.1 a.2.1 a.2.2.1 a.2.2.2 decompressed with
  | .error err => (pngImg, some err)
  | .ok defiltered => ({ pngImg with data := defiltered }, none)

/-- The method `ProcessData`. The value `extractMetadata` returns is dropped, as in
the source; the list of calls records which collaborators were reached. -/
def ProcessData (k : Collaborators) (c : ColorTypes) (pngImg : PngImage)
    (stpng : StructPNG) : Outcome :=
  let pngImg := (extractMetadata pngImg stpng).1
  match stpng.IDATdata with
  | .error err => ⟨pngImg, some err, [Stage.IHDRChunk, Stage.IDATdata]⟩
  | .ok IDATdata =>
    match k.DecompressPNGData IDATdata pngImg.meta.compressionMethod with
    | .error err =>
      ⟨pngImg, some err, [Stage.IHDRChunk, Stage.IDATdata, Stage.DecompressPNGData]⟩
    | .ok decompressed =>
      match Unfilter k c pngImg decompressed with
      | (pngImg, some err) =>
        ⟨pngImg, some err,
          [Stage.IHDRChunk, Stage.IDATdata, Stage.DecompressPNGData, Stage.reconstruct]⟩
      | (pngImg, none) =>
        ⟨pngImg, none,
          [Stage.IHDRChunk, Stage.IDATdata, Stage.DecompressPNGData, Stage.reconstruct]⟩

/-- The function `ProcessImage`. The value `ProcessData` returns is dropped, as in
the source; the two `log.Println(err)` calls write to the log only and are left
out. -/
def ProcessImage (fs : FileSystem) (k : Collaborators) (c : ColorTypes)
    (path : String) : PngImage × Option PngError :=
  let newPngImage : PngImage := {}
  match fs.Open path with
  | .error err => (newPngImage, some err)
  | .ok file =>
    match fs.ParsePNG file with
    | .error err => (newPngImage, some err)
    | .ok pngData =>
      let newPngImage := { newPngImage with png := some pngData }
      let newPngImage := (ProcessData k c newPngImage pngData).img
      (newPngImage, none)

/-! ## Auxiliary facts -/

/-- A list of length 13 is a literal of 13 elements. -/
theorem list_length_thirteen (d : List Nat) (h : d.length = 13) :
    ∃ b0 b1 b2 b3 b4 b5 b6 b7 b8 b9 b10 b11 b12,
      d = [b0, b1, b2, b3, b4, b5, b6, b7, b8, b9, b10, b11, b12] := by
  match d, h with
  | [b0, b1, b2, b3, b4, b5, b6, b7, b8, b9, b10, b11, b12], _ =>
    exact ⟨b0, b1, b2, b3, b4, b5, b6, b7, b8, b9, b10, b11, b12, rfl⟩

/-- On four bytes the shifts and ors of `BigEndian_Uint32` add up to the base-256
number with the first byte most significant. -/
theorem BigEndian_Uint32_bytes (b0 b1 b2 b3 : Nat) (h0 : b0 < 256) (h1 : b1 < 256)
    (h2 : b2 < 256) (h3 : b3 < 256) :
    BigEndian_Uint32 [b0, b1, b2, b3] = b0 * 2 ^ 24 + b1 * 2 ^ 16 + b2 * 2 ^ 8 + b3 := by
  have e3 : byteAt [b0, b1, b2, b3] 3 = b3 := rfl
  have e2 : byteAt [b0, b1, b2, b3] 2 = b2 := rfl
  have e1 : byteAt [b0, b1, b2, b3] 1 = b1 := rfl
  have e0 : byteAt [b0, b1, b2, b3] 0 = b0 := rfl
  unfold BigEndian_Uint32
  rw [e3, e2, e1, e0, Nat.shiftLeft_eq, Nat.shiftLeft_eq, Nat.shiftLeft_eq,
    Nat.mod_eq_of_lt (by omega : b3 < 2 ^ 32),
    Nat.mod_eq_of_lt (by omega : b2 * 2 ^ 8 < 2 ^ 32),
    Nat.mod_eq_of_lt (by omega : b1 * 2 ^ 16 < 2 ^ 32),
    Nat.mod_eq_of_lt (by omega : b0 * 2 ^ 24 < 2 ^ 32)]
  have s1 : b3 ||| b2 * 2 ^ 8 = b2 * 2 ^ 8 + b3 := by
    rw [Nat.or_comm, Nat.mul_comm b2, ← Nat.mul_add_lt_is_or (by omega : b3 < 2 ^ 8)]
  have s2 : (b2 * 2 ^ 8 + b3) ||| b1 * 2 ^ 16 = b1 * 2 ^ 16 + (b2 * 2 ^ 8 + b3) := by
    rw [Nat.or_comm, Nat.mul_comm b1,
      ← Nat.mul_add_lt_is_or (by omega : b2 * 2 ^ 8 + b3 < 2 ^ 16)]
  have s3 : (b1 * 2 ^ 16 + (b2 * 2 ^ 8 + b3)) ||| b0 * 2 ^ 24
      = b0 * 2 ^ 24 + (b1 * 2 ^ 16 + (b2 * 2 ^ 8 + b3)) := by
    rw [Nat.or_comm, Nat.mul_comm b0,
      ← Nat.mul_add_lt_is_or (by omega : b1 * 2 ^ 16 + (b2 * 2 ^ 8 + b3) < 2 ^ 24)]
  rw [s1, s2, s3]
  omega

/-- The sample count is at most 4. -/
theorem samplesPerPixel_le (c : ColorTypes) (pngImg : PngImage) :
    samplesPerPixel c pngImg ≤ 4 := by
  unfold samplesPerPixel
  dsimp only
  split_ifs <;> omega

/-- With a bit depth below 8 one sample takes one byte. -/
theorem bytesPerSample_lt (pngImg : PngImage) (h : pngImg.meta.bitDepth < 8) :
    bytesPerSample pngImg = 1 := by
  unfold bytesPerSample
  simp [h]

/-- With a bit depth of 8 or more one sample takes `bitDepth / 8` bytes. -/
theorem bytesPerSample_ge (pngImg : PngImage) (h : 8 ≤ pngImg.meta.bitDepth) :
    bytesPerSample pngImg = pngImg.meta.bitDepth / 8 := by
  unfold bytesPerSample
  simp [Nat.not_lt.mpr h]

/-- Sample count of greyscale. -/
theorem samplesPerPixel_Grayscale (c : ColorTypes) (pngImg : PngImage)
    (hc : pngImg.meta.colorType = c.Grayscale) : samplesPerPixel c pngImg = 1 := by
  unfold samplesPerPixel; simp [hc]

/-- Sample count of indexed colour. -/
theorem samplesPerPixel_IndexedColor (c : ColorTypes) (hd : c.Distinct) (pngImg : PngImage)
    (hc : pngImg.meta.colorType = c.IndexedColor) : samplesPerPixel c pngImg = 1 := by
  obtain ⟨-, d2, -⟩ := hd
  unfold samplesPerPixel; simp [hc, Ne.symm d2]

/-- Sample count of greyscale with alpha. -/
theorem samplesPerPixel_GrayscaleWithAlpha (c : ColorTypes) (hd : c.Distinct)
    (pngImg : PngImage) (hc : pngImg.meta.colorType = c.GrayscaleWithAlpha) :
    samplesPerPixel c pngImg = 2 := by
  obtain ⟨-, -, d3, -, -, -, -, d8, -⟩ := hd
  unfold samplesPerPixel; simp [hc, Ne.symm d3, Ne.symm d8]

/-- Sample count of truecolour. -/
theorem samplesPerPixel_Truecolor (c : ColorTypes) (hd : c.Distinct) (pngImg : PngImage)
    (hc : pngImg.meta.colorType = c.Truecolor) : samplesPerPixel c pngImg = 3 := by
  obtain ⟨d1, -, -, -, d5, d6, -⟩ := hd
  unfold samplesPerPixel; simp [hc, Ne.symm d1, d5, d6]

/-- Sample count of truecolour with alpha. -/
theorem samplesPerPixel_TruecolorWithAlpha (c : ColorTypes) (hd : c.Distinct)
    (pngImg : PngImage) (hc : pngImg.meta.colorType = c.TruecolorWithAlpha) :
    samplesPerPixel c pngImg = 4 := by
  obtain ⟨-, -, -, d4, -, -, d7, -, d9, d10⟩ := hd
  unfold samplesPerPixel; simp [hc, Ne.symm d4, Ne.symm d7, Ne.symm d9, Ne.symm d10]

/-- Sample count of a code that is none of the five constants. -/
theorem samplesPerPixel_unknown (c : ColorTypes) (pngImg : PngImage)
    (hk : ¬ c.Known pngImg.meta.colorType) : samplesPerPixel c pngImg = 0 := by
  unfold ColorTypes.Known at hk
  simp only [not_or] at hk
  obtain ⟨k1, k2, k3, k4, k5⟩ := hk
  unfold samplesPerPixel
  simp [k1, k2, k3, k4, k5]

/-- Below bit depth 8 the `uint8` product of `bytesPerPixel` is the sample count. -/
theorem bytesPerPixel_of_lt (c : ColorTypes) (pngImg : PngImage)
    (h : pngImg.meta.bitDepth < 8) : bytesPerPixel c pngImg = samplesPerPixel c pngImg := by
  have hle := samplesPerPixel_le c pngImg
  unfold bytesPerPixel
  rw [bytesPerSample_lt pngImg h, Nat.mul_one]
  exact Nat.mod_eq_of_lt (by omega)

/-- From bit depth 8 on the `uint8` product of `bytesPerPixel` does not wrap. -/
theorem bytesPerPixel_of_ge (c : ColorTypes) (pngImg : PngImage)
    (h8 : 8 ≤ pngImg.meta.bitDepth) (hr : pngImg.meta.bitDepth < 2 ^ 8) :
    bytesPerPixel c pngImg = samplesPerPixel c pngImg * (pngImg.meta.bitDepth / 8) := by
  have hle := samplesPerPixel_le c pngImg
  have hq : pngImg.meta.bitDepth / 8 ≤ 31 := by omega
  have hp : samplesPerPixel c pngImg * (pngImg.meta.bitDepth / 8) ≤ 4 * 31 :=
    Nat.mul_le_mul hle hq
  unfold bytesPerPixel
  rw [bytesPerSample_ge pngImg h8]
  exact Nat.mod_eq_of_lt (by omega)

/-- The parser `processIHDR` leaves the pixel data alone. -/
theorem processIHDR_data (pngImg : PngImage) (d : List Nat) :
    (processIHDR pngImg d).1.data = pngImg.data := by
  unfold processIHDR
  by_cases h : d.length = 13 <;> simp [h]

/-- The method `extractMetadata` leaves the pixel data alone. -/
theorem extractMetadata_data (pngImg : PngImage) (stpng : StructPNG) :
    (extractMetadata pngImg stpng).1.data = pngImg.data := by
  unfold extractMetadata
  cases hchunk : stpng.IHDRChunk with
  | error err => rfl
  | ok ihdrData =>
    have hd := processIHDR_data { pngImg with meta := {} } ihdrData
    simp only
    split <;> simp_all

/-- When `Unfilter` returns an error the image is the one it was given. -/
theorem Unfilter_error (k : Collaborators) (c : ColorTypes) (pngImg : PngImage)
    (decompressed : List Nat) (e : PngError)
    (h : (Unfilter k c pngImg decompressed).2 = some e) :
    (Unfilter k c pngImg decompressed).1 = pngImg := by
  unfold Unfilter at h ⊢
  simp only at h ⊢
  split <;> simp_all

/-- A known colour type has at least one sample per pixel. -/
theorem samplesPerPixel_pos_of_known (c : ColorTypes) (pngImg : PngImage)
    (hk : c.Known pngImg.meta.colorType) : 1 ≤ samplesPerPixel c pngImg := by
  unfold samplesPerPixel
  dsimp only
  split_ifs with h1 h2 h3 h4 h5
  · omega
  · omega
  · omega
  · omega
  · omega
  · exfalso
    rcases hk with h | h | h | h | h
    · exact h1 h
    · exact h2 h
    · exact h3 h
    · exact h4 h
    · exact h5 h

/-- One sample takes between 1 and 31 bytes when the bit depth is a `uint8`. -/
theorem bytesPerSample_bounds (pngImg : PngImage) (hr : pngImg.meta.bitDepth < 2 ^ 8) :
    1 ≤ bytesPerSample pngImg ∧ bytesPerSample pngImg ≤ 31 := by
  unfold bytesPerSample
  split_ifs with h
  · omega
  · omega

/-- The `uint8` product of `bytesPerPixel` is the exact product, at most 124. -/
theorem bytesPerPixel_exact (c : ColorTypes) (pngImg : PngImage)
    (hr : pngImg.meta.bitDepth < 2 ^ 8) :
    bytesPerPixel c pngImg = samplesPerPixel c pngImg * bytesPerSample pngImg ∧
    samplesPerPixel c pngImg * bytesPerSample pngImg ≤ 124 := by
  have hle := samplesPerPixel_le c pngImg
  have hb := (bytesPerSample_bounds pngImg hr).2
  have hp : samplesPerPixel c pngImg * bytesPerSample pngImg ≤ 4 * 31 :=
    Nat.mul_le_mul hle hb
  refine ⟨?_, by omega⟩
  unfold bytesPerPixel
  exact Nat.mod_eq_of_lt (by omega)

/-- An unknown colour type gives zero bytes per pixel, whatever the bit depth. -/
theorem bytesPerPixel_unknown (c : ColorTypes) (pngImg : PngImage)
    (hk : ¬ c.Known pngImg.meta.colorType) : bytesPerPixel c pngImg = 0 := by
  unfold bytesPerPixel
  rw [samplesPerPixel_unknown c pngImg hk]
  simp

/-- An unknown colour type gives a zero stride, whatever the width. -/
theorem stride_unknown (c : ColorTypes) (pngImg : PngImage)
    (hk : ¬ c.Known pngImg.meta.colorType) : stride c pngImg = 0 := by
  unfold stride
  rw [bytesPerPixel_unknown c pngImg hk]
  simp

/-- On 13 bytes `processIHDR` returns no error. -/
theorem processIHDR_ok (pngImg : PngImage) (b : List Nat) (hlen : b.length = 13) :
    (processIHDR pngImg b).2 = none := by
  unfold processIHDR
  simp [hlen]

/-- On 13 bytes `processIHDR` stores byte 9 as the colour type. -/
theorem processIHDR_colorType (pngImg : PngImage) (b : List Nat) (hlen : b.length = 13) :
    (processIHDR pngImg b).1.meta.colorType = byteAt b 9 := by
  unfold processIHDR
  simp [hlen]

/-- The metadata `processIHDR` stores for a payload of 13 bytes in range. -/
theorem processIHDR_meta (pngImg : PngImage) (b0 b1 b2 b3 b4 b5 b6 b7 b8 b9 b10 b11 b12 : Nat)
    (h0 : b0 < 256) (h1 : b1 < 256) (h2 : b2 < 256) (h3 : b3 < 256)
    (h4 : b4 < 256) (h5 : b5 < 256) (h6 : b6 < 256) (h7 : b7 < 256) :
    (processIHDR pngImg [b0, b1, b2, b3, b4, b5, b6, b7, b8, b9, b10, b11, b12]).1.meta
      = { width := b0 * 2 ^ 24 + b1 * 2 ^ 16 + b2 * 2 ^ 8 + b3,
          height := b4 * 2 ^ 24 + b5 * 2 ^ 16 + b6 * 2 ^ 8 + b7,
          bitDepth := b8, colorType := b9, compressionMethod := b10,
          filterMethod := b11, interlaceMethod := b12 } := by
  have hw := BigEndian_Uint32_bytes b0 b1 b2 b3 h0 h1 h2 h3
  have hh := BigEndian_Uint32_bytes b4 b5 b6 b7 h4 h5 h6 h7
  have e : (processIHDR pngImg [b0, b1, b2, b3, b4, b5, b6, b7, b8, b9, b10, b11, b12]).1.meta
      = { width := BigEndian_Uint32 [b0, b1, b2, b3],
          height := BigEndian_Uint32 [b4, b5, b6, b7],
          bitDepth := b8, colorType := b9, compressionMethod := b10,
          filterMethod := b11, interlaceMethod := b12 } := rfl
  rw [e, hw, hh]

/-- Writing back the metadata parsed from 13 bytes gives the 13 bytes. -/
theorem serializeIHDR_processIHDR (pngImg : PngImage) (b : List Nat) (hlen : b.length = 13)
    (hb : ∀ x ∈ b, x < 256) : serializeIHDR (processIHDR pngImg b).1.meta = b := by
  obtain ⟨b0, b1, b2, b3, b4, b5, b6, b7, b8, b9, b10, b11, b12, rfl⟩ :=
    list_length_thirteen b hlen
  simp only [List.mem_cons, List.mem_singleton, forall_eq_or_imp, forall_eq] at hb
  obtain ⟨h0, h1, h2, h3, h4, h5, h6, h7, -⟩ := hb
  rw [processIHDR_meta pngImg b0 b1 b2 b3 b4 b5 b6 b7 b8 b9 b10 b11 b12 h0 h1 h2 h3 h4 h5 h6 h7]
  unfold serializeIHDR
  simp only [List.cons.injEq, and_true]
  omega

/-- The metadata `processIHDR` leaves does not depend on the image it is called on. -/
theorem processIHDR_meta_indep (pngImg other : PngImage) (d : List Nat) :
    (processIHDR pngImg d).1.meta = (processIHDR other d).1.meta := by
  unfold processIHDR
  by_cases h : d.length = 13 <;> simp [h]

/-- On a chunk reader that delivers the payload `b`, `extractMetadata` leaves the
image `processIHDR` leaves. -/
theorem extractMetadata_ok (pngImg : PngImage) (stpng : StructPNG) (b : List Nat)
    (h : stpng.IHDRChunk = .ok b) :
    (extractMetadata pngImg stpng).1 = (processIHDR pngImg b).1 := by
  have e : processIHDR { pngImg with meta := {} } b = processIHDR pngImg b := rfl
  unfold extractMetadata
  simp only [h, e]
  split <;> simp_all

/-- On 13 bytes `processIHDR` stores byte 10 as the compression method. -/
theorem processIHDR_compressionMethod (pngImg : PngImage) (b : List Nat)
    (hlen : b.length = 13) :
    (processIHDR pngImg b).1.meta.compressionMethod = byteAt b 10 := by
  unfold processIHDR
  simp [hlen]

/-- On 13 bytes `processIHDR` stores byte 11 as the filter method. -/
theorem processIHDR_filterMethod (pngImg : PngImage) (b : List Nat)
    (hlen : b.length = 13) :
    (processIHDR pngImg b).1.meta.filterMethod = byteAt b 11 := by
  unfold processIHDR
  simp [hlen]

/-! ## The metadata parser: claims -/

/-- C1: `processIHDR` returns `ErrInvalidIHDR` exactly when the payload is not 13
bytes long, and returns no error on every payload of 13 bytes, whatever the bytes
are. -/
theorem processIHDR_error_iff (pngImg : PngImage) (d : List Nat) :
    ((processIHDR pngImg d).2 = some PngError.ErrInvalidIHDR ↔ d.length ≠ 13) ∧
    (d.length = 13 → (processIHDR pngImg d).2 = none) := by
  unfold processIHDR
  by_cases h : d.length = 13 <;> simp [h]

/-- The header of a 2 by 2 truecolour image parses without error. -/
theorem processIHDR_error_iff_witness :
    [0, 0, 0, 2, 0, 0, 0, 2, 8, 2, 0, 0, 0].length = 13 ∧
    (processIHDR {} [0, 0, 0, 2, 0, 0, 0, 2, 8, 2, 0, 0, 0]).2 = none :=
  ⟨by decide, (processIHDR_error_iff {} [0, 0, 0, 2, 0, 0, 0, 2, 8, 2, 0, 0, 0]).2 (by decide)⟩

/-- C2: on a payload `b` of 13 bytes `processIHDR` stores the width and the height
as the big-endian unsigned 32-bit numbers of bytes 0 to 3 and 4 to 7, and bytes 8 to
12 as bit depth, colour type, compression method, filter method and interlace
method. -/
theorem processIHDR_fields (pngImg : PngImage) (b : List Nat) (hlen : b.length = 13)
    (hb : ∀ x ∈ b, x < 256) :
    (processIHDR pngImg b).1.meta.width
      = byteAt b 0 * 2 ^ 24 + byteAt b 1 * 2 ^ 16 + byteAt b 2 * 2 ^ 8 + byteAt b 3 ∧
    (processIHDR pngImg b).1.meta.height
      = byteAt b 4 * 2 ^ 24 + byteAt b 5 * 2 ^ 16 + byteAt b 6 * 2 ^ 8 + byteAt b 7 ∧
    (processIHDR pngImg b).1.meta.width < 2 ^ 32 ∧
    (processIHDR pngImg b).1.meta.height < 2 ^ 32 ∧
    (processIHDR pngImg b).1.meta.bitDepth = byteAt b 8 ∧
    (processIHDR pngImg b).1.meta.colorType = byteAt b 9 ∧
    (processIHDR pngImg b).1.meta.compressionMethod = byteAt b 10 ∧
    (processIHDR pngImg b).1.meta.filterMethod = byteAt b 11 ∧
    (processIHDR pngImg b).1.meta.interlaceMethod = byteAt b 12 := by
  obtain ⟨b0, b1, b2, b3, b4, b5, b6, b7, b8, b9, b10, b11, b12, rfl⟩ :=
    list_length_thirteen b hlen
  simp only [List.mem_cons, List.mem_singleton, forall_eq_or_imp, forall_eq] at hb
  obtain ⟨h0, h1, h2, h3, h4, h5, h6, h7, -⟩ := hb
  have hw := BigEndian_Uint32_bytes b0 b1 b2 b3 h0 h1 h2 h3
  have hh := BigEndian_Uint32_bytes b4 b5 b6 b7 h4 h5 h6 h7
  have ew : (processIHDR pngImg [b0, b1, b2, b3, b4, b5, b6, b7, b8, b9, b10, b11, b12]).1.meta.width
      = BigEndian_Uint32 [b0, b1, b2, b3] := rfl
  have eh : (processIHDR pngImg [b0, b1, b2, b3, b4, b5, b6, b7, b8, b9, b10, b11, b12]).1.meta.height
      = BigEndian_Uint32 [b4, b5, b6, b7] := rfl
  refine ⟨?_, ?_, ?_, ?_, rfl, rfl, rfl, rfl, rfl⟩
  · rw [ew, hw]; rfl
  · rw [eh, hh]; rfl
  · rw [ew, hw]; omega
  · rw [eh, hh]; omega

/-- The header of a 258 by 2 truecolour image: width bytes `0 0 1 2`. -/
theorem processIHDR_fields_witness :
    (processIHDR {} [0, 0, 1, 2, 0, 0, 0, 2, 8, 2, 0, 0, 0]).1.meta.width
      = byteAt [0, 0, 1, 2, 0, 0, 0, 2, 8, 2, 0, 0, 0] 0 * 2 ^ 24
        + byteAt [0, 0, 1, 2, 0, 0, 0, 2, 8, 2, 0, 0, 0] 1 * 2 ^ 16
        + byteAt [0, 0, 1, 2, 0, 0, 0, 2, 8, 2, 0, 0, 0] 2 * 2 ^ 8
        + byteAt [0, 0, 1, 2, 0, 0, 0, 2, 8, 2, 0, 0, 0] 3 :=
  (processIHDR_fields {} [0, 0, 1, 2, 0, 0, 0, 2, 8, 2, 0, 0, 0] (by decide) (by decide)).1

/-! ## The geometry calculator: claims -/

/-- C3, as stated, fails: a truecolour image of bit depth 4 has a bit depth below 8
and `bytesPerPixel` returns 3, not 1. -/
theorem bytesPerPixel_truecolor_depth4 :
    ({ meta := { bitDepth := 4, colorType := pngColorTypes.Truecolor } } : PngImage).meta.bitDepth < 8 ∧
    bytesPerPixel pngColorTypes
      { meta := { bitDepth := 4, colorType := pngColorTypes.Truecolor } } = 3 ∧
    bytesPerPixel pngColorTypes
      { meta := { bitDepth := 4, colorType := pngColorTypes.Truecolor } } ≠ 1 := by
  decide

/-- C3, amended: with a bit depth below 8 `bytesPerPixel` returns the sample count
of the colour type (one byte per sample): 1 for greyscale and indexed colour, 2 for
greyscale with alpha, 3 for truecolour, 4 for truecolour with alpha. -/
theorem bytesPerPixel_sub_byte (c : ColorTypes) (hd : c.Distinct) (pngImg : PngImage)
    (h : pngImg.meta.bitDepth < 8) :
    bytesPerPixel c pngImg = samplesPerPixel c pngImg ∧
    (pngImg.meta.colorType = c.Grayscale → bytesPerPixel c pngImg = 1) ∧
    (pngImg.meta.colorType = c.IndexedColor → bytesPerPixel c pngImg = 1) ∧
    (pngImg.meta.colorType = c.GrayscaleWithAlpha → bytesPerPixel c pngImg = 2) ∧
    (pngImg.meta.colorType = c.Truecolor → bytesPerPixel c pngImg = 3) ∧
    (pngImg.meta.colorType = c.TruecolorWithAlpha → bytesPerPixel c pngImg = 4) := by
  have e := bytesPerPixel_of_lt c pngImg h
  refine ⟨e, ?_, ?_, ?_, ?_, ?_⟩ <;> intro hc <;> rw [e]
  · exact samplesPerPixel_Grayscale c pngImg hc
  · exact samplesPerPixel_IndexedColor c hd pngImg hc
  · exact samplesPerPixel_GrayscaleWithAlpha c hd pngImg hc
  · exact samplesPerPixel_Truecolor c hd pngImg hc
  · exact samplesPerPixel_TruecolorWithAlpha c hd pngImg hc

/-- A greyscale image with alpha of bit depth 4 has two bytes per pixel. -/
theorem bytesPerPixel_sub_byte_witness :
    pngColorTypes.Distinct ∧
    bytesPerPixel pngColorTypes
      { meta := { bitDepth := 4, colorType := pngColorTypes.GrayscaleWithAlpha } } = 2 :=
  ⟨by decide,
    (bytesPerPixel_sub_byte pngColorTypes (by decide)
      { meta := { bitDepth := 4, colorType := pngColorTypes.GrayscaleWithAlpha } }
      (by decide)).2.2.2.1 rfl⟩

/-- C4: with a bit depth of 8 or more `bytesPerPixel` is the sample count times
`bitDepth / 8` (rounded down), the exact product; truecolour at depth 8 gives 3 and
truecolour with alpha at depth 16 gives 8. -/
theorem bytesPerPixel_whole_bytes (c : ColorTypes) (hd : c.Distinct) (pngImg : PngImage)
    (h8 : 8 ≤ pngImg.meta.bitDepth) (hr : pngImg.meta.bitDepth < 2 ^ 8) :
    bytesPerPixel c pngImg = samplesPerPixel c pngImg * (pngImg.meta.bitDepth / 8) ∧
    (pngImg.meta.colorType = c.Truecolor → pngImg.meta.bitDepth = 8 →
      bytesPerPixel c pngImg = 3) ∧
    (pngImg.meta.colorType = c.TruecolorWithAlpha → pngImg.meta.bitDepth = 16 →
      bytesPerPixel c pngImg = 8) := by
  have e := bytesPerPixel_of_ge c pngImg h8 hr
  refine ⟨e, ?_, ?_⟩ <;> intro hc hb <;> rw [e, hb]
  · rw [samplesPerPixel_Truecolor c hd pngImg hc]
  · rw [samplesPerPixel_TruecolorWithAlpha c hd pngImg hc]

/-- Truecolour with alpha at bit depth 16 has eight bytes per pixel. -/
theorem bytesPerPixel_whole_bytes_witness :
    pngColorTypes.Distinct ∧
    bytesPerPixel pngColorTypes
      { meta := { bitDepth := 16, colorType := pngColorTypes.TruecolorWithAlpha } } = 8 :=
  ⟨by decide,
    (bytesPerPixel_whole_bytes pngColorTypes (by decide)
      { meta := { bitDepth := 16, colorType := pngColorTypes.TruecolorWithAlpha } }
      (by decide) (by decide)).2.2 rfl rfl⟩

/-- C5: `samplesPerPixel` is 1 for greyscale, 1 for indexed colour, 2 for greyscale
with alpha, 3 for truecolour, 4 for truecolour with alpha and 0 for every other
code, and two images with the same colour type have the same sample count. -/
theorem samplesPerPixel_table (c : ColorTypes) (hd : c.Distinct) (pngImg : PngImage) :
    (pngImg.meta.colorType = c.Grayscale → samplesPerPixel c pngImg = 1) ∧
    (pngImg.meta.colorType = c.IndexedColor → samplesPerPixel c pngImg = 1) ∧
    (pngImg.meta.colorType = c.GrayscaleWithAlpha → samplesPerPixel c pngImg = 2) ∧
    (pngImg.meta.colorType = c.Truecolor → samplesPerPixel c pngImg = 3) ∧
    (pngImg.meta.colorType = c.TruecolorWithAlpha → samplesPerPixel c pngImg = 4) ∧
    (¬ c.Known pngImg.meta.colorType → samplesPerPixel c pngImg = 0) ∧
    (∀ other : PngImage, other.meta.colorType = pngImg.meta.colorType →
      samplesPerPixel c other = samplesPerPixel c pngImg) := by
  refine ⟨samplesPerPixel_Grayscale c pngImg, samplesPerPixel_IndexedColor c hd pngImg,
    samplesPerPixel_GrayscaleWithAlpha c hd pngImg, samplesPerPixel_Truecolor c hd pngImg,
    samplesPerPixel_TruecolorWithAlpha c hd pngImg, samplesPerPixel_unknown c pngImg, ?_⟩
  intro other ho
  unfold samplesPerPixel
  rw [ho]

/-- Code 5 is none of the five standard colour types and has sample count 0. -/
theorem samplesPerPixel_table_witness :
    pngColorTypes.Distinct ∧ ¬ pngColorTypes.Known 5 ∧
    samplesPerPixel pngColorTypes { meta := { colorType := 5 } } = 0 :=
  ⟨by decide, by decide,
    (samplesPerPixel_table pngColorTypes (by decide)
      { meta := { colorType := 5 } }).2.2.2.2.2.1 (by decide)⟩

/-- C6: `stride` is `width × bytesPerPixel` as an unsigned 32-bit value, that is
the product modulo `2 ^ 32`, hence the exact product when that is below `2 ^ 32`;
for width 2, truecolour and bit depth 8 it is 6. -/
theorem stride_eq (c : ColorTypes) (pngImg : PngImage) :
    stride c pngImg = (pngImg.meta.width * bytesPerPixel c pngImg) % 2 ^ 32 ∧
    (pngImg.meta.width * bytesPerPixel c pngImg < 2 ^ 32 →
      stride c pngImg = pngImg.meta.width * bytesPerPixel c pngImg) ∧
    (c.Distinct → pngImg.meta.width = 2 → pngImg.meta.colorType = c.Truecolor →
      pngImg.meta.bitDepth = 8 → stride c pngImg = 6) := by
  refine ⟨rfl, fun h => Nat.mod_eq_of_lt h, ?_⟩
  intro hd hw hc hb
  have h3 : bytesPerPixel c pngImg = 3 := by
    rw [bytesPerPixel_of_ge c pngImg (by omega) (by omega), hb,
      samplesPerPixel_Truecolor c hd pngImg hc]
  unfold stride
  rw [hw, h3]
  norm_num

/-- The 2 by 2 truecolour image of bit depth 8 has stride 6. -/
theorem stride_eq_witness :
    pngColorTypes.Distinct ∧
    stride pngColorTypes
      { meta := { width := 2, height := 2, bitDepth := 8,
                  colorType := pngColorTypes.Truecolor } } = 6 :=
  ⟨by decide,
    (stride_eq pngColorTypes
      { meta := { width := 2, height := 2, bitDepth := 8,
                  colorType := pngColorTypes.Truecolor } }).2.2 (by decide) rfl rfl rfl⟩

/-! ## The pipeline: claims -/

/-- C7, evaluated where the code departs from it: a greyscale image of bit depth 8
and width 65536 has `stride` 65536, the exact product of width and bytes per pixel,
and `Unfilter` hands stride 0 to the defilterer, because `uint16(pngImg.stride())`
keeps only the low 16 bits. -/
theorem Unfilter_stride_truncated :
    stride pngColorTypes
      { meta := { width := 65536, height := 1, bitDepth := 8,
                  colorType := pngColorTypes.Grayscale } } = 65536 ∧
    bytesPerPixel pngColorTypes
      { meta := { width := 65536, height := 1, bitDepth := 8,
                  colorType := pngColorTypes.Grayscale } } = 1 ∧
    (newFiltererArgs pngColorTypes
      { meta := { width := 65536, height := 1, bitDepth := 8,
                  colorType := pngColorTypes.Grayscale } }).2.1 = 0 := by
  refine ⟨?_, ?_, ?_⟩ <;> simp [newFiltererArgs, stride, bytesPerPixel, samplesPerPixel,
    bytesPerSample, pngColorTypes]

/-- C8, evaluated where the code departs from it: when the chunk reader fails to
deliver the IHDR chunk, and likewise when the IHDR payload has 12 bytes,
`extractMetadata` returns the error, yet `ProcessData` goes on to request the IDAT
data, decompress and defilter, returns no error and assigns pixel data. -/
theorem ProcessData_drops_metadata_error :
    (extractMetadata {} { IHDRChunk := .error (PngError.other 1), IDATdata := .ok [0, 7] }).2
      = some (PngError.other 1) ∧
    (ProcessData
      { DecompressPNGData := fun d _ => .ok d, reconstruct := fun _ _ _ _ d => .ok d }
      pngColorTypes {}
      { IHDRChunk := .error (PngError.other 1), IDATdata := .ok [0, 7] }).err = none ∧
    (ProcessData
      { DecompressPNGData := fun d _ => .ok d, reconstruct := fun _ _ _ _ d => .ok d }
      pngColorTypes {}
      { IHDRChunk := .error (PngError.other 1), IDATdata := .ok [0, 7] }).calls
      = [Stage.IHDRChunk, Stage.IDATdata, Stage.DecompressPNGData, Stage.reconstruct] ∧
    (ProcessData
      { DecompressPNGData := fun d _ => .ok d, reconstruct := fun _ _ _ _ d => .ok d }
      pngColorTypes {}
      { IHDRChunk := .error (PngError.other 1), IDATdata := .ok [0, 7] }).img.data = [0, 7] ∧
    (extractMetadata {}
      { IHDRChunk := .ok [0, 0, 0, 1, 0, 0, 0, 1, 8, 0, 0, 0], IDATdata := .ok [0, 7] }).2
      = some PngError.ErrInvalidIHDR ∧
    (ProcessData
      { DecompressPNGData := fun d _ => .ok d, reconstruct := fun _ _ _ _ d => .ok d }
      pngColorTypes {}
      { IHDRChunk := .ok [0, 0, 0, 1, 0, 0, 0, 1, 8, 0, 0, 0], IDATdata := .ok [0, 7] }).err
      = none ∧
    (ProcessData
      { DecompressPNGData := fun d _ => .ok d, reconstruct := fun _ _ _ _ d => .ok d }
      pngColorTypes {}
      { IHDRChunk := .ok [0, 0, 0, 1, 0, 0, 0, 1, 8, 0, 0, 0], IDATdata := .ok [0, 7] }).img.data
      = [0, 7] := by
  refine ⟨rfl, rfl, rfl, rfl, rfl, rfl, rfl⟩

/-- C9, evaluated where the code departs from it: the file opens and parses, the
chunk reader then fails to deliver the IDAT data, so `ProcessData` returns that
error on the parsed container, and `ProcessImage` returns an image with no error. -/
theorem ProcessImage_drops_error :
    (ProcessData
      { DecompressPNGData := fun d _ => .ok d, reconstruct := fun _ _ _ _ d => .ok d }
      pngColorTypes { png := some { IHDRChunk := .ok [0, 0, 0, 1, 0, 0, 0, 1, 8, 0, 0, 0, 0],
                                    IDATdata := .error (PngError.other 7) } }
      { IHDRChunk := .ok [0, 0, 0, 1, 0, 0, 0, 1, 8, 0, 0, 0, 0],
        IDATdata := .error (PngError.other 7) }).err = some (PngError.other 7) ∧
    (ProcessImage
      { Open := fun _ => .ok [137, 80, 78, 71, 13, 10, 26, 10],
        ParsePNG := fun _ => .ok { IHDRChunk := .ok [0, 0, 0, 1, 0, 0, 0, 1, 8, 0, 0, 0, 0],
                                   IDATdata := .error (PngError.other 7) } }
      { DecompressPNGData := fun d _ => .ok d, reconstruct := fun _ _ _ _ d => .ok d }
      pngColorTypes "image.png").2 = none ∧
    (ProcessImage
      { Open := fun _ => .ok [137, 80, 78, 71, 13, 10, 26, 10],
        ParsePNG := fun _ => .ok { IHDRChunk := .ok [0, 0, 0, 1, 0, 0, 0, 1, 8, 0, 0, 0, 0],
                                   IDATdata := .error (PngError.other 7) } }
      { DecompressPNGData := fun d _ => .ok d, reconstruct := fun _ _ _ _ d => .ok d }
      pngColorTypes "image.png").1.data = [] := by
  refine ⟨rfl, rfl, rfl⟩

/-- C10: when `IDATdata`, `DecompressPNGData` or `Unfilter` returns an error `e`,
`ProcessData` returns exactly `e`, makes none of the later collaborator calls and
leaves the pixel data as it was before the call. -/
theorem ProcessData_stage_error (k : Collaborators) (c : ColorTypes) (pngImg : PngImage)
    (stpng : StructPNG) (e : PngError) :
    (stpng.IDATdata = .error e →
      (ProcessData k c pngImg stpng).err = some e ∧
      Stage.DecompressPNGData ∉ (ProcessData k c pngImg stpng).calls ∧
      Stage.reconstruct ∉ (ProcessData k c pngImg stpng).calls ∧
      (ProcessData k c pngImg stpng).img.data = pngImg.data) ∧
    (∀ IDATdata, stpng.IDATdata = .ok IDATdata →
      k.DecompressPNGData IDATdata
          (extractMetadata pngImg stpng).1.meta.compressionMethod = .error e →
      (ProcessData k c pngImg stpng).err = some e ∧
      Stage.reconstruct ∉ (ProcessData k c pngImg stpng).calls ∧
      (ProcessData k c pngImg stpng).img.data = pngImg.data) ∧
    (∀ IDATdata decompressed, stpng.IDATdata = .ok IDATdata →
      k.DecompressPNGData IDATdata
          (extractMetadata pngImg stpng).1.meta.compressionMethod = .ok decompressed →
      (Unfilter k c (extractMetadata pngImg stpng).1 decompressed).2 = some e →
      (ProcessData k c pngImg stpng).err = some e ∧
      (ProcessData k c pngImg stpng).img.data = pngImg.data) := by
  have hdata := extractMetadata_data pngImg stpng
  refine ⟨?_, ?_, ?_⟩
  · intro h
    unfold ProcessData
    simp [h, hdata]
  · intro IDATdata h hdec
    unfold ProcessData
    simp [h, hdec, hdata]
  · intro IDATdata decompressed h hdec hunf
    have himg := Unfilter_error k c _ decompressed e hunf
    unfold ProcessData
    simp only [h, hdec]
    split
    · rename_i p err heq
      rw [heq] at hunf himg
      simp only at hunf himg
      simp_all
    · rename_i p heq
      rw [heq] at hunf
      simp at hunf

/-- Three runs: the chunk reader fails to deliver the IDAT data, the decompressor
fails, the defilterer fails; each time the error comes back and the pixel data
`[4, 2]` stays. -/
theorem ProcessData_stage_error_witness :
    ((ProcessData
      { DecompressPNGData := fun d _ => .ok d, reconstruct := fun _ _ _ _ d => .ok d }
      pngColorTypes { data := [4, 2] }
      { IHDRChunk := .ok [0, 0, 0, 1, 0, 0, 0, 1, 8, 0, 0, 0, 0],
        IDATdata := .error (PngError.other 7) }).err = some (PngError.other 7) ∧
     (ProcessData
      { DecompressPNGData := fun d _ => .ok d, reconstruct := fun _ _ _ _ d => .ok d }
      pngColorTypes { data := [4, 2] }
      { IHDRChunk := .ok [0, 0, 0, 1, 0, 0, 0, 1, 8, 0, 0, 0, 0],
        IDATdata := .error (PngError.other 7) }).img.data = [4, 2]) ∧
    ((ProcessData
      { DecompressPNGData := fun _ _ => .error (PngError.other 8),
        reconstruct := fun _ _ _ _ d => .ok d }
      pngColorTypes { data := [4, 2] }
      { IHDRChunk := .ok [0, 0, 0, 1, 0, 0, 0, 1, 8, 0, 0, 0, 0],
        IDATdata := .ok [0, 9] }).err = some (PngError.other 8) ∧
     (ProcessData
      { DecompressPNGData := fun _ _ => .error (PngError.other 8),
        reconstruct := fun _ _ _ _ d => .ok d }
      pngColorTypes { data := [4, 2] }
      { IHDRChunk := .ok [0, 0, 0, 1, 0, 0, 0, 1, 8, 0, 0, 0, 0],
        IDATdata := .ok [0, 9] }).img.data = [4, 2]) ∧
    ((ProcessData
      { DecompressPNGData := fun d _ => .ok d,
        reconstruct := fun _ _ _ _ _ => .error (PngError.other 9) }
      pngColorTypes { data := [4, 2] }
      { IHDRChunk := .ok [0, 0, 0, 1, 0, 0, 0, 1, 8, 0, 0, 0, 0],
        IDATdata := .ok [0, 9] }).err = some (PngError.other 9) ∧
     (ProcessData
      { DecompressPNGData := fun d _ => .ok d,
        reconstruct := fun _ _ _ _ _ => .error (PngError.other 9) }
      pngColorTypes { data := [4, 2] }
      { IHDRChunk := .ok [0, 0, 0, 1, 0, 0, 0, 1, 8, 0, 0, 0, 0],
        IDATdata := .ok [0, 9] }).img.data = [4, 2]) :=
  ⟨(fun h => ⟨h.1, h.2.2.2⟩)
    ((ProcessData_stage_error
      { DecompressPNGData := fun d _ => .ok d, reconstruct := fun _ _ _ _ d => .ok d }
      pngColorTypes { data := [4, 2] }
      { IHDRChunk := .ok [0, 0, 0, 1, 0, 0, 0, 1, 8, 0, 0, 0, 0],
        IDATdata := .error (PngError.other 7) } (PngError.other 7)).1 rfl),
   (fun h => ⟨h.1, h.2.2⟩)
    ((ProcessData_stage_error
      { DecompressPNGData := fun _ _ => .error (PngError.other 8),
        reconstruct := fun _ _ _ _ d => .ok d }
      pngColorTypes { data := [4, 2] }
      { IHDRChunk := .ok [0, 0, 0, 1, 0, 0, 0, 1, 8, 0, 0, 0, 0],
        IDATdata := .ok [0, 9] } (PngError.other 8)).2.1 [0, 9] rfl rfl),
   (ProcessData_stage_error
      { DecompressPNGData := fun d _ => .ok d,
        reconstruct := fun _ _ _ _ _ => .error (PngError.other 9) }
      pngColorTypes { data := [4, 2] }
      { IHDRChunk := .ok [0, 0, 0, 1, 0, 0, 0, 1, 8, 0, 0, 0, 0],
        IDATdata := .ok [0, 9] } (PngError.other 9)).2.2 [0, 9] [0, 9] rfl rfl rfl⟩

/-- C11: `Unfilter` is all or nothing. When the defilterer's `reconstruct` returns
an error, `Unfilter` returns that error and the image, pixel data and metadata
included, is as before; when `reconstruct` succeeds, `Unfilter` returns no error,
the pixel data is the reconstructed buffer and the metadata is as before. -/
theorem Unfilter_all_or_nothing (k : Collaborators) (c : ColorTypes) (pngImg : PngImage)
    (decompressed : List Nat) :
    (∀ e, k.reconstruct (newFiltererArgs c pngImg).1 (newFiltererArgs c pngImg).2.1
          (newFiltererArgs c pngImg).2.2.1 (newFiltererArgs c pngImg).2.2.2 decompressed
          = .error e →
      (Unfilter k c pngImg decompressed).2 = some e ∧
      (Unfilter k c pngImg decompressed).1.data = pngImg.data ∧
      (Unfilter k c pngImg decompressed).1.meta = pngImg.meta) ∧
    (∀ recon, k.reconstruct (newFiltererArgs c pngImg).1 (newFiltererArgs c pngImg).2.1
          (newFiltererArgs c pngImg).2.2.1 (newFiltererArgs c pngImg).2.2.2 decompressed
          = .ok recon →
      (Unfilter k c pngImg decompressed).2 = none ∧
      (Unfilter k c pngImg decompressed).1.data = recon ∧
      (Unfilter k c pngImg decompressed).1.meta = pngImg.meta) := by
  refine ⟨?_, ?_⟩
  · intro e h
    unfold Unfilter
    simp [h]
  · intro recon h
    unfold Unfilter
    simp [h]

/-- Two calls on a 1 by 1 greyscale image holding pixel data `[4, 2]`: a defilterer
that fails with error 9 and one that returns `[5]`. -/
theorem Unfilter_all_or_nothing_witness :
    ((Unfilter
        { DecompressPNGData := fun d _ => .ok d,
          reconstruct := fun _ _ _ _ _ => .error (PngError.other 9) }
        pngColorTypes { meta := { width := 1, height := 1, bitDepth := 8 }, data := [4, 2] }
        [0, 5]).2 = some (PngError.other 9) ∧
     (Unfilter
        { DecompressPNGData := fun d _ => .ok d,
          reconstruct := fun _ _ _ _ _ => .error (PngError.other 9) }
        pngColorTypes { meta := { width := 1, height := 1, bitDepth := 8 }, data := [4, 2] }
        [0, 5]).1.data = [4, 2]) ∧
    ((Unfilter
        { DecompressPNGData := fun d _ => .ok d,
          reconstruct := fun _ _ _ _ d => .ok (d.drop 1) }
        pngColorTypes { meta := { width := 1, height := 1, bitDepth := 8 }, data := [4, 2] }
        [0, 5]).2 = none ∧
     (Unfilter
        { DecompressPNGData := fun d _ => .ok d,
          reconstruct := fun _ _ _ _ d => .ok (d.drop 1) }
        pngColorTypes { meta := { width := 1, height := 1, bitDepth := 8 }, data := [4, 2] }
        [0, 5]).1.data = [5]) :=
  ⟨(fun h => ⟨h.1, h.2.1⟩)
    ((Unfilter_all_or_nothing
        { DecompressPNGData := fun d _ => .ok d,
          reconstruct := fun _ _ _ _ _ => .error (PngError.other 9) }
        pngColorTypes { meta := { width := 1, height := 1, bitDepth := 8 }, data := [4, 2] }
        [0, 5]).1 (PngError.other 9) rfl),
   (fun h => ⟨h.1, h.2.1⟩)
    ((Unfilter_all_or_nothing
        { DecompressPNGData := fun d _ => .ok d,
          reconstruct := fun _ _ _ _ d => .ok (d.drop 1) }
        pngColorTypes { meta := { width := 1, height := 1, bitDepth := 8 }, data := [4, 2] }
        [0, 5]).2 [5] rfl)⟩

/-! ## Bounds of the geometry: claims -/

/-- C13: for a known colour type and a bit depth among 1, 2, 4, 8, 16,
`bytesPerPixel` lies between 1 and 8, and truecolour with alpha at bit depth 16
reaches 8. -/
theorem bytesPerPixel_range (c : ColorTypes) (hd : c.Distinct) (pngImg : PngImage)
    (hk : c.Known pngImg.meta.colorType)
    (hb : pngImg.meta.bitDepth = 1 ∨ pngImg.meta.bitDepth = 2 ∨ pngImg.meta.bitDepth = 4 ∨
      pngImg.meta.bitDepth = 8 ∨ pngImg.meta.bitDepth = 16) :
    (1 ≤ bytesPerPixel c pngImg ∧ bytesPerPixel c pngImg ≤ 8) ∧
    bytesPerPixel c { meta := { bitDepth := 16, colorType := c.TruecolorWithAlpha } } = 8 := by
  have hle := samplesPerPixel_le c pngImg
  have hpos := samplesPerPixel_pos_of_known c pngImg hk
  refine ⟨?_, ?_⟩
  · have hs : bytesPerSample pngImg = 1 ∨ bytesPerSample pngImg = 2 := by
      unfold bytesPerSample
      rcases hb with h | h | h | h | h <;> simp [h]
    unfold bytesPerPixel
    rcases hs with h | h <;> rw [h] <;> omega
  · rw [bytesPerPixel_of_ge c _ (by show 8 ≤ 16; omega) (by show 16 < 2 ^ 8; omega),
      samplesPerPixel_TruecolorWithAlpha c hd _ rfl]
    show 4 * (16 / 8) = 8
    norm_num

/-- Greyscale at bit depth 1 has one byte per pixel, within 1 to 8. -/
theorem bytesPerPixel_range_witness :
    pngColorTypes.Distinct ∧ pngColorTypes.Known 0 ∧
    1 ≤ bytesPerPixel pngColorTypes { meta := { bitDepth := 1, colorType := 0 } } ∧
    bytesPerPixel pngColorTypes { meta := { bitDepth := 1, colorType := 0 } } ≤ 8 :=
  ⟨by decide, by decide,
    (bytesPerPixel_range pngColorTypes (by decide)
      { meta := { bitDepth := 1, colorType := 0 } } (by decide) (Or.inl rfl)).1⟩

/-- C14: for a colour type that is none of the five known ones, `samplesPerPixel`,
`bytesPerPixel` and `stride` are 0 for every width and bit depth, and the parser
accepts a 13-byte header with such a colour type without error (the three
functions return a number and have no error result). -/
theorem unknown_colorType_zero (c : ColorTypes) (pngImg : PngImage) :
    (¬ c.Known pngImg.meta.colorType →
      samplesPerPixel c pngImg = 0 ∧ bytesPerPixel c pngImg = 0 ∧ stride c pngImg = 0) ∧
    (∀ b : List Nat, b.length = 13 → ¬ c.Known (byteAt b 9) →
      (processIHDR pngImg b).2 = none ∧
      samplesPerPixel c (processIHDR pngImg b).1 = 0 ∧
      bytesPerPixel c (processIHDR pngImg b).1 = 0 ∧
      stride c (processIHDR pngImg b).1 = 0) := by
  refine ⟨fun hk => ⟨samplesPerPixel_unknown c pngImg hk, bytesPerPixel_unknown c pngImg hk,
    stride_unknown c pngImg hk⟩, ?_⟩
  intro b hlen hk
  have hc := processIHDR_colorType pngImg b hlen
  have hk2 : ¬ c.Known (processIHDR pngImg b).1.meta.colorType := by rw [hc]; exact hk
  exact ⟨processIHDR_ok pngImg b hlen, samplesPerPixel_unknown c _ hk2,
    bytesPerPixel_unknown c _ hk2, stride_unknown c _ hk2⟩

/-- A header of width 16, bit depth 8 and colour type 5: parsed without error,
stride 0. -/
theorem unknown_colorType_zero_witness :
    [0, 0, 0, 16, 0, 0, 0, 1, 8, 5, 0, 0, 0].length = 13 ∧
    ¬ pngColorTypes.Known (byteAt [0, 0, 0, 16, 0, 0, 0, 1, 8, 5, 0, 0, 0] 9) ∧
    (processIHDR {} [0, 0, 0, 16, 0, 0, 0, 1, 8, 5, 0, 0, 0]).2 = none ∧
    stride pngColorTypes (processIHDR {} [0, 0, 0, 16, 0, 0, 0, 1, 8, 5, 0, 0, 0]).1 = 0 :=
  ⟨by decide, by decide,
    (fun h => ⟨h.1, h.2.2.2⟩)
      ((unknown_colorType_zero pngColorTypes {}).2 [0, 0, 0, 16, 0, 0, 0, 1, 8, 5, 0, 0, 0]
        (by decide) (by decide))⟩

/-- C16: the `uint8` multiplication in `bytesPerPixel` never wraps. For every bit
depth from 0 to 255 and every colour type the result is the exact product of
`samplesPerPixel` and the bytes per sample (1 below depth 8, else `bitDepth / 8`
rounded down), it is at most 124, and it is 0 exactly when the colour type is none
of the five known ones. -/
theorem bytesPerPixel_no_wrap (c : ColorTypes) (pngImg : PngImage)
    (hr : pngImg.meta.bitDepth < 2 ^ 8) :
    bytesPerPixel c pngImg
      = samplesPerPixel c pngImg
        * (if pngImg.meta.bitDepth < 8 then 1 else pngImg.meta.bitDepth / 8) ∧
    bytesPerPixel c pngImg ≤ 124 ∧
    (bytesPerPixel c pngImg = 0 ↔ ¬ c.Known pngImg.meta.colorType) := by
  obtain ⟨he, hle⟩ := bytesPerPixel_exact c pngImg hr
  have hs := (bytesPerSample_bounds pngImg hr).1
  refine ⟨he, by omega, ?_⟩
  constructor
  · intro h0 hk
    have hpos := samplesPerPixel_pos_of_known c pngImg hk
    rw [he] at h0
    have := Nat.mul_le_mul hpos hs
    omega
  · exact bytesPerPixel_unknown c pngImg

/-- Truecolour with alpha at bit depth 255, the largest product: 4 times 31. -/
theorem bytesPerPixel_no_wrap_witness :
    ({ meta := { bitDepth := 255, colorType := 6 } } : PngImage).meta.bitDepth < 2 ^ 8 ∧
    bytesPerPixel pngColorTypes { meta := { bitDepth := 255, colorType := 6 } } ≤ 124 :=
  ⟨by decide,
    (bytesPerPixel_no_wrap pngColorTypes { meta := { bitDepth := 255, colorType := 6 } }
      (by decide)).2.1⟩

/-! ## What the parser keeps and what it does not check: claims -/

/-- C15, as stated, fails: the payload of 13 zero bytes is parsed without error and
the stored width and height are both 0. -/
theorem processIHDR_zero_size :
    (processIHDR {} [0, 0, 0, 0, 0, 0, 0, 0, 0, 0, 0, 0, 0]).2 = none ∧
    (processIHDR {} [0, 0, 0, 0, 0, 0, 0, 0, 0, 0, 0, 0, 0]).1.meta.width = 0 ∧
    (processIHDR {} [0, 0, 0, 0, 0, 0, 0, 0, 0, 0, 0, 0, 0]).1.meta.height = 0 := by
  refine ⟨rfl, ?_, ?_⟩ <;> decide

/-- C15, amended: `processIHDR` does not check the size. On every payload of 13
bytes it returns no error, and the stored width is non-zero exactly when one of
bytes 0 to 3 is non-zero, the stored height exactly when one of bytes 4 to 7 is. -/
theorem processIHDR_size_unchecked (pngImg : PngImage) (b : List Nat)
    (hlen : b.length = 13) (hb : ∀ x ∈ b, x < 256) :
    (processIHDR pngImg b).2 = none ∧
    (0 < (processIHDR pngImg b).1.meta.width ↔
      (byteAt b 0 ≠ 0 ∨ byteAt b 1 ≠ 0 ∨ byteAt b 2 ≠ 0 ∨ byteAt b 3 ≠ 0)) ∧
    (0 < (processIHDR pngImg b).1.meta.height ↔
      (byteAt b 4 ≠ 0 ∨ byteAt b 5 ≠ 0 ∨ byteAt b 6 ≠ 0 ∨ byteAt b 7 ≠ 0)) := by
  refine ⟨processIHDR_ok pngImg b hlen, ?_⟩
  obtain ⟨b0, b1, b2, b3, b4, b5, b6, b7, b8, b9, b10, b11, b12, rfl⟩ :=
    list_length_thirteen b hlen
  simp only [List.mem_cons, List.mem_singleton, forall_eq_or_imp, forall_eq] at hb
  obtain ⟨h0, h1, h2, h3, h4, h5, h6, h7, -⟩ := hb
  rw [processIHDR_meta pngImg b0 b1 b2 b3 b4 b5 b6 b7 b8 b9 b10 b11 b12 h0 h1 h2 h3 h4 h5 h6 h7]
  have e0 : byteAt [b0, b1, b2, b3, b4, b5, b6, b7, b8, b9, b10, b11, b12] 0 = b0 := rfl
  have e1 : byteAt [b0, b1, b2, b3, b4, b5, b6, b7, b8, b9, b10, b11, b12] 1 = b1 := rfl
  have e2 : byteAt [b0, b1, b2, b3, b4, b5, b6, b7, b8, b9, b10, b11, b12] 2 = b2 := rfl
  have e3 : byteAt [b0, b1, b2, b3, b4, b5, b6, b7, b8, b9, b10, b11, b12] 3 = b3 := rfl
  have e4 : byteAt [b0, b1, b2, b3, b4, b5, b6, b7, b8, b9, b10, b11, b12] 4 = b4 := rfl
  have e5 : byteAt [b0, b1, b2, b3, b4, b5, b6, b7, b8, b9, b10, b11, b12] 5 = b5 := rfl
  have e6 : byteAt [b0, b1, b2, b3, b4, b5, b6, b7, b8, b9, b10, b11, b12] 6 = b6 := rfl
  have e7 : byteAt [b0, b1, b2, b3, b4, b5, b6, b7, b8, b9, b10, b11, b12] 7 = b7 := rfl
  rw [e0, e1, e2, e3, e4, e5, e6, e7]
  simp only
  constructor <;> omega

/-- A header of width 0 and height 1: no error, height non-zero. -/
theorem processIHDR_size_unchecked_witness :
    (processIHDR {} [0, 0, 0, 0, 0, 0, 0, 1, 8, 0, 0, 0, 0]).2 = none ∧
    ¬ 0 < (processIHDR {} [0, 0, 0, 0, 0, 0, 0, 1, 8, 0, 0, 0, 0]).1.meta.width ∧
    0 < (processIHDR {} [0, 0, 0, 0, 0, 0, 0, 1, 8, 0, 0, 0, 0]).1.meta.height :=
  (fun h => ⟨h.1, fun hw => absurd (h.2.1.mp hw) (by decide), h.2.2.mpr (by decide)⟩)
    (processIHDR_size_unchecked {} [0, 0, 0, 0, 0, 0, 0, 1, 8, 0, 0, 0, 0]
      (by decide) (by decide))

/-- C17: `processIHDR` loses nothing of a 13-byte payload. Writing the stored
metadata back (width and height big-endian on 4 bytes each, then the five single
bytes) gives the payload again, so two different payloads never leave the same
metadata. -/
theorem processIHDR_lossless (pngImg : PngImage) (b : List Nat) (hlen : b.length = 13)
    (hb : ∀ x ∈ b, x < 256) :
    serializeIHDR (processIHDR pngImg b).1.meta = b ∧
    (∀ (other : PngImage) (b' : List Nat), b'.length = 13 → (∀ x ∈ b', x < 256) →
      (processIHDR pngImg b).1.meta = (processIHDR other b').1.meta → b = b') := by
  have hrt := serializeIHDR_processIHDR pngImg b hlen hb
  refine ⟨hrt, ?_⟩
  intro other b' hlen' hb' hm
  rw [← hrt, hm]
  exact serializeIHDR_processIHDR other b' hlen' hb'

/-- The header of a 258 by 513 truecolour image with alpha is written back. -/
theorem processIHDR_lossless_witness :
    serializeIHDR (processIHDR {} [0, 0, 1, 2, 0, 0, 2, 1, 16, 6, 0, 0, 1]).1.meta
      = [0, 0, 1, 2, 0, 0, 2, 1, 16, 6, 0, 0, 1] :=
  (processIHDR_lossless {} [0, 0, 1, 2, 0, 0, 2, 1, 16, 6, 0, 0, 1]
    (by decide) (by decide)).1

/-- C18: the metadata `processIHDR` leaves depends on the input bytes only. For an
input of length other than 13 it is the all-zero metadata, whatever was stored
before; two calls on the same input from any two images leave equal metadata; the
pixel data is never modified. -/
theorem processIHDR_frame (pngImg : PngImage) (d : List Nat) :
    (d.length ≠ 13 → (processIHDR pngImg d).1.meta
      = { width := 0, height := 0, bitDepth := 0, colorType := 0, compressionMethod := 0,
          filterMethod := 0, interlaceMethod := 0 }) ∧
    (∀ other : PngImage, (processIHDR pngImg d).1.meta = (processIHDR other d).1.meta) ∧
    (processIHDR pngImg d).1.data = pngImg.data := by
  refine ⟨?_, fun other => processIHDR_meta_indep pngImg other d, processIHDR_data pngImg d⟩
  intro h
  unfold processIHDR
  simp [h]

/-- An image holding a parsed 2 by 2 header and pixel data `[4, 2]`, given a
12-byte payload: the metadata is all zero afterwards. -/
theorem processIHDR_frame_witness :
    [0, 0, 0, 1, 0, 0, 0, 1, 8, 0, 0, 0].length ≠ 13 ∧
    (processIHDR { meta := { width := 2, height := 2, bitDepth := 8, colorType := 2 },
                   data := [4, 2] }
      [0, 0, 0, 1, 0, 0, 0, 1, 8, 0, 0, 0]).1.meta
      = { width := 0, height := 0, bitDepth := 0, colorType := 0, compressionMethod := 0,
          filterMethod := 0, interlaceMethod := 0 } :=
  ⟨by decide,
    (processIHDR_frame { meta := { width := 2, height := 2, bitDepth := 8, colorType := 2 },
                         data := [4, 2] }
      [0, 0, 0, 1, 0, 0, 0, 1, 8, 0, 0, 0]).1 (by decide)⟩

/-! ## The filter method: claim -/

/-- C12, as stated, fails: the header of a 1 by 1 greyscale image with filter method
1, with a decompressor and a defilterer that succeed, is decoded without error and
pixel data is assigned. -/
theorem ProcessData_filterMethod_one :
    byteAt [0, 0, 0, 1, 0, 0, 0, 1, 8, 0, 0, 1, 0] 11 ≠ 0 ∧
    (ProcessData
      { DecompressPNGData := fun d _ => .ok d, reconstruct := fun _ _ _ _ d => .ok (d.drop 1) }
      pngColorTypes {}
      { IHDRChunk := .ok [0, 0, 0, 1, 0, 0, 0, 1, 8, 0, 0, 1, 0], IDATdata := .ok [0, 7] }).err
      = none ∧
    (ProcessData
      { DecompressPNGData := fun d _ => .ok d, reconstruct := fun _ _ _ _ d => .ok (d.drop 1) }
      pngColorTypes {}
      { IHDRChunk := .ok [0, 0, 0, 1, 0, 0, 0, 1, 8, 0, 0, 1, 0],
        IDATdata := .ok [0, 7] }).img.data = [7] ∧
    (ProcessData
      { DecompressPNGData := fun d _ => .ok d, reconstruct := fun _ _ _ _ d => .ok (d.drop 1) }
      pngColorTypes {}
      { IHDRChunk := .ok [0, 0, 0, 1, 0, 0, 0, 1, 8, 0, 0, 1, 0],
        IDATdata := .ok [0, 7] }).img.meta.filterMethod = 1 := by
  refine ⟨by decide, rfl, rfl, rfl⟩

/-- C12, amended: `ProcessData` stores the filter method byte and does not check it.
For every 13-byte IHDR payload, whatever its byte 11, when the IDAT data is
delivered and the decompressor and the defilterer succeed, `ProcessData` returns no
error, the pixel data is the defilterer's buffer and the stored filter method is
byte 11. -/
theorem ProcessData_filterMethod_unchecked (k : Collaborators) (c : ColorTypes)
    (pngImg : PngImage) (stpng : StructPNG) (b IDATdata decompressed recon : List Nat)
    (hlen : b.length = 13) (hchunk : stpng.IHDRChunk = .ok b)
    (hidat : stpng.IDATdata = .ok IDATdata)
    (hdec : k.DecompressPNGData IDATdata (byteAt b 10) = .ok decompressed)
    (hrec : k.reconstruct (newFiltererArgs c (processIHDR pngImg b).1).1
        (newFiltererArgs c (processIHDR pngImg b).1).2.1
        (newFiltererArgs c (processIHDR pngImg b).1).2.2.1
        (newFiltererArgs c (processIHDR pngImg b).1).2.2.2 decompressed = .ok recon) :
    (ProcessData k c pngImg stpng).err = none ∧
    (ProcessData k c pngImg stpng).img.data = recon ∧
    (ProcessData k c pngImg stpng).img.meta.filterMethod = byteAt b 11 := by
  have hx := extractMetadata_ok pngImg stpng b hchunk
  have hcm := processIHDR_compressionMethod pngImg b hlen
  have hfm := processIHDR_filterMethod pngImg b hlen
  have hu : Unfilter k c (processIHDR pngImg b).1 decompressed
      = ({ (processIHDR pngImg b).1 with data := recon }, none) := by
    unfold Unfilter
    simp [hrec]
  unfold ProcessData
  simp only [hx, hidat, hcm, hdec, hu]
  exact ⟨trivial, trivial, hfm⟩

/-- The 1 by 1 greyscale header with filter method 1 is decoded without error. -/
theorem ProcessData_filterMethod_unchecked_witness :
    (ProcessData
      { DecompressPNGData := fun d _ => .ok d, reconstruct := fun _ _ _ _ d => .ok (d.drop 1) }
      pngColorTypes {}
      { IHDRChunk := .ok [0, 0, 0, 1, 0, 0, 0, 1, 8, 0, 0, 1, 0], IDATdata := .ok [0, 7] }).err
      = none ∧
    (ProcessData
      { DecompressPNGData := fun d _ => .ok d, reconstruct := fun _ _ _ _ d => .ok (d.drop 1) }
      pngColorTypes {}
      { IHDRChunk := .ok [0, 0, 0, 1, 0, 0, 0, 1, 8, 0, 0, 1, 0],
        IDATdata := .ok [0, 7] }).img.data = [7] :=
  (fun h => ⟨h.1, h.2.1⟩)
    (ProcessData_filterMethod_unchecked
      { DecompressPNGData := fun d _ => .ok d, reconstruct := fun _ _ _ _ d => .ok (d.drop 1) }
      pngColorTypes {}
      { IHDRChunk := .ok [0, 0, 0, 1, 0, 0, 0, 1, 8, 0, 0, 1, 0], IDATdata := .ok [0, 7] }
      [0, 0, 0, 1, 0, 0, 0, 1, 8, 0, 0, 1, 0] [0, 7] [0, 7] [7]
      (by decide) rfl rfl rfl rfl)

end SteganoGo
